import Mathlib

/-!
Verification development for `rrsim.go` (beorn7/rrsim), a simulator of a
fleet of server replicas undergoing staggered rolling restarts, each
exposing a `queries_total` counter to a Prometheus registry.

Shallow embedding conventions:
* Go `time.Duration` values (int64 nanoseconds) are modelled as `ℕ` where
  all quantities in play are non-negative (the scheduler formulas), and as
  `ℤ` with Go's truncated division where signs can matter (the
  configuration-validation model).  Go's integer `/` on durations is
  truncated division, `Int.tdiv` on `ℤ` and plain `/` on `ℕ`.
* `float64` quantities (`qps`, `jitter`, `loss`, and the outputs of
  `rand.Float64` / `rand.NormFloat64`) are modelled as `ℚ`; the code only
  combines them with field arithmetic and order comparisons, never with
  rounding-sensitive operations.
* Random draws are passed in explicitly: a uniform draw is a `ℚ` assumed in
  `[0, 1)` where the claim needs it, a normal draw is an arbitrary `ℚ`.
* The per-task event loop (`runTask`, lines 79–95) is modelled as a state
  machine driven by a list of events, each event being the timer that won
  the `select`; the lifetime timer (`stopTimer`) firing ends the list.
-/

namespace Rrsim

/-! ## Query Generator: wait times (`waitDurationNs`, lines 54–56, 75, 85) -/

/-- Embedding of `waitDurationNs` (lines 54–56):
`1e9 * (rand.NormFloat64()*jitter + 1) / qps`, with `z` the
`rand.NormFloat64()` draw. -/
def waitDurationNs (jitter qps z : ℚ) : ℚ :=
  1000000000 * (z * jitter + 1) / qps

/-- Mean inter-query wait in nanoseconds, `1e9 / qps` (i.e. `1/qps` seconds). -/
def meanWaitNs (qps : ℚ) : ℚ := 1000000000 / qps

/-- The sequence of wait durations `runTask` feeds to its query timer:
the initial timer duration is `waitDurationNs() * rand.Float64()` (line 75,
`u0` the uniform draw), every reset uses `waitDurationNs()` unscaled
(line 85).  `z k` is the `rand.NormFloat64()` draw used for the `k`-th wait. -/
def taskWait (jitter qps u0 : ℚ) (z : ℕ → ℚ) : ℕ → ℚ
  | 0 => waitDurationNs jitter qps (z 0) * u0
  | k + 1 => waitDurationNs jitter qps (z (k + 1))

/-- Go timer semantics at the scheduling layer (`time.NewTimer`,
`Timer.Reset`, lines 74–75, 85): a timer armed with duration `d` fires
after `max d 0` — a non-positive duration fires immediately; the drawn
value is used as-is, never re-drawn. -/
def timerDelay (d : ℚ) : ℚ := max d 0

/-- The delay actually scheduled for the `k`-th query firing. -/
def scheduledWait (jitter qps u0 : ℚ) (z : ℕ → ℚ) (k : ℕ) : ℚ :=
  timerDelay (taskWait jitter qps u0 z k)

/-! ## Batch Scheduler (`main`, lines 110–126) -/

/-- Lifetime handed to `runTask` for slot `i` of the initial batch
(line 114): `*runDuration + *restartDuration*time.Duration(i)/time.Duration(*num)`,
with Go's truncated integer division on nanoseconds (non-negative here, so
equal to floor division on `ℕ`). -/
def initialLifetime (runI restartI n i : ℕ) : ℕ :=
  runI + restartI * i / n

/-- Stagger offset of slot `i` in the initial wave: its lifetime minus
`runInterval`. -/
def staggerOffset (runI restartI n i : ℕ) : ℕ :=
  initialLifetime runI restartI n i - runI

/-- The initial wave (lines 112–115): slot `i` is started with start delay
`0` (the loop launches all goroutines back-to-back without sleeping) and
lifetime `initialLifetime`.  Entries are `(slot, startDelay, lifetime)`. -/
def initialWave (runI restartI n : ℕ) : List (ℕ × ℕ × ℕ) :=
  (List.range n).map fun i => (i, 0, initialLifetime runI restartI n i)

/-- Per-slot sleep of a steady-state restart wave (line 123):
`*restartDuration / time.Duration(*num)`. -/
def perSlotSleep (restartI n : ℕ) : ℕ := restartI / n

/-- The sleeps a steady-state wave performs: one `perSlotSleep` after each
of the `n` slot starts (the sleep runs after every iteration, including the
last). -/
def waveSleeps (restartI n : ℕ) : List ℕ :=
  List.replicate n (perSlotSleep restartI n)

/-- Start offset of slot `i` within a steady-state wave, measured from the
moment the wave begins (after the `runDuration` sleep of line 118): slot `i`
starts after the `i` sleeps of the previous iterations. -/
def steadyStart (restartI n i : ℕ) : ℕ := i * perSlotSleep restartI n

/-- Lifetime of every steady-state task (line 122):
`*runDuration + *restartDuration`. -/
def steadyLifetime (runI restartI : ℕ) : ℕ := runI + restartI

/-- A steady-state restart wave (lines 121–124): slot `i` is started at
offset `steadyStart` with lifetime `steadyLifetime`.  Entries are
`(slot, startOffset, lifetime)`. -/
def steadyWave (runI restartI n : ℕ) : List (ℕ × ℕ × ℕ) :=
  (List.range n).map fun i =>
    (i, steadyStart restartI n i, steadyLifetime runI restartI)

/-! ## Replica Task event loop (`runTask`, lines 58–96) -/

/-- Period of the visibility (`loss`) ticker in nanoseconds
(`time.NewTicker(time.Second)`, line 76). -/
def lossTickPeriodNs : ℕ := 1000000000

/-- One event of `runTask`'s `select` loop: either the query timer fired
(line 83) or the loss ticker fired with uniform draw `u` (line 86).  The
`stopTimer` firing is modelled by the event list ending (the function
returns, line 82). -/
inductive Ev where
  | query : Ev
  | tick : ℚ → Ev
deriving Repr, DecidableEq

/-- State owned by one `runTask` invocation: its counter's accumulated
value (`cnt`), its local `registered` flag (line 72), and whether the
counter is actually present in the Prometheus registry.  The value is
modelled as `ℤ` (the claims speak about non-negativity). -/
structure RunState where
  value : ℤ
  registered : Bool
  present : Bool
deriving Repr, DecidableEq

/-- State at the top of the loop (lines 62–77): counter fresh at `0`,
just registered (`MustRegister`, line 70), so present with flag set. -/
def initState : RunState := ⟨0, true, true⟩

/-- The query branch (lines 83–85): `cnt.Inc()` adds exactly `1`; the
timer reset touches no task state. -/
def stepQuery (s : RunState) : RunState := { s with value := s.value + 1 }

/-- The loss-ticker branch (lines 86–94):
`if rand.Float64() < *loss && registered { Unregister; registered = false }
else if !registered { MustRegister; registered = true }`. -/
def stepTick (loss u : ℚ) (s : RunState) : RunState :=
  if u < loss ∧ s.registered = true then
    { s with registered := false, present := false }
  else if s.registered = false then
    { s with registered := true, present := true }
  else s

/-- One `select` iteration. -/
def step (loss : ℚ) (s : RunState) : Ev → RunState
  | .query => stepQuery s
  | .tick u => stepTick loss u s

/-- Run the loop over a list of events. -/
def run (loss : ℚ) (s : RunState) : List Ev → RunState
  | [] => s
  | e :: es => run loss (step loss s e) es

/-- The loss-ticker branch calls `prometheus.MustRegister` (line 91), which
panics if the collector is already present.  The register branch is entered
exactly when the local flag is down, so a tick panics iff the flag is down
while the counter is still present. -/
def stepPanics (s : RunState) : Ev → Bool
  | .query => false
  | .tick _ => !s.registered && s.present

/-- Whether any iteration of the run would hit `MustRegister`'s panic. -/
def runPanics (loss : ℚ) (s : RunState) : List Ev → Bool
  | [] => false
  | e :: es => stepPanics s e || runPanics loss (step loss s e) es

/-- A registry operation. -/
inductive RegOp where
  | register : RegOp
  | unregister : RegOp
deriving Repr, DecidableEq

/-- A registry call made by the task, recording whether the counter was
present in the registry at the moment of the call. -/
structure Call where
  op : RegOp
  wasPresent : Bool
deriving Repr, DecidableEq

/-- Registry calls of one `select` iteration (lines 86–94; the query
branch makes none — `Inc` mutates the counter object, not the registry's
member set). -/
def stepCalls (loss : ℚ) (s : RunState) : Ev → List Call
  | .query => []
  | .tick u =>
    if u < loss ∧ s.registered = true then [⟨.unregister, s.present⟩]
    else if s.registered = false then [⟨.register, s.present⟩]
    else []

/-- Registry calls made over a run of the loop. -/
def runCalls (loss : ℚ) (s : RunState) : List Ev → List Call
  | [] => []
  | e :: es => stepCalls loss s e ++ runCalls loss (step loss s e) es

/-- All registry calls of one complete `runTask` life: the initial
`MustRegister` (line 70, on a fresh — hence absent — identity), the loop's
calls, and the deferred `prometheus.Unregister` executed when `stopTimer`
fires and the function returns (lines 71, 81–82). -/
def taskCalls (loss : ℚ) (es : List Ev) : List Call :=
  ⟨.register, false⟩ :: runCalls loss initState es
    ++ [⟨.unregister, (run loss initState es).present⟩]

/-- Whether an event is a query firing. -/
def Ev.isQuery : Ev → Bool
  | .query => true
  | .tick _ => false

/-- Number of query firings in an event list. -/
def countQueries (es : List Ev) : ℕ :=
  (es.filter Ev.isQuery).length

/-! ## Configuration handling (`main`, lines 98–126) -/

/-- The command-line configuration (lines 15–52): durations in
nanoseconds as `ℤ` (Go `time.Duration` is int64, and flags may be given
negative values), float flags as `ℚ`. -/
structure Config where
  num : ℤ
  runDuration : ℤ
  restartDuration : ℤ
  qps : ℚ
  jitter : ℚ
  loss : ℚ
deriving Repr, DecidableEq

/-- Go integer division on durations: truncated; division by zero is a
run-time panic, modelled as `none`. -/
def goDurDiv (a b : ℤ) : Option ℤ :=
  if b = 0 then none else some (a.tdiv b)

/-- Embedding of `main`'s startup through the launch of the initial wave
(lines 98–115).  `main` contains no validation of `num`, `qps` or `loss`:
after `flag.Parse` it installs the HTTP handler and runs the initial-wave
loop, whose body executes only for `0 ≤ i < num` (so for `num ≤ 0` it
starts nothing).  A fatal exit would be `.error`; `main` has no fatal
path, so the result is always `.ok` with the `(slot, lifetime)` list. -/
def mainStartup (c : Config) : Except String (List (ℤ × ℤ)) :=
  .ok ((List.range c.num.toNat).map fun i =>
    ((i : ℤ), c.runDuration + (c.restartDuration * (i : ℤ)).tdiv c.num))

/-- Sleeps performed by `k` executed iterations of the steady-state inner
loop: each iteration evaluates the division `restartDuration / num` once;
`none` propagates a division-by-zero panic. -/
def steadyLoopSleeps (restartI n : ℤ) : ℕ → Option (List ℤ)
  | 0 => some []
  | k + 1 =>
    match goDurDiv restartI n, steadyLoopSleeps restartI n k with
    | some s, some l => some (s :: l)
    | _, _ => none

/-- The sleeps of one steady-state restart wave (lines 121–124): the
division `*restartDuration / time.Duration(*num)` sits inside the loop
body, so it is evaluated once per executed iteration — the loop guard
`i < num` means no iteration (hence no division) runs when `num ≤ 0`. -/
def steadySleepsZ (c : Config) : Option (List ℤ) :=
  steadyLoopSleeps c.restartDuration c.num c.num.toNat

/-- A configuration the spec calls invalid: `N ≤ 0`, non-positive `qps`,
or negative `loss`. -/
def invalidConfig (c : Config) : Prop :=
  c.num ≤ 0 ∨ c.qps ≤ 0 ∨ c.loss < 0

/-! ## Helper lemmas about the `runTask` state machine -/

/-- The query branch does not touch the registration flag. -/
theorem stepQuery_registered (s : RunState) :
    (stepQuery s).registered = s.registered := rfl

/-- The query branch does not touch registry presence. -/
theorem stepQuery_present (s : RunState) :
    (stepQuery s).present = s.present := rfl

/-- The loss-ticker branch never touches the counter value. -/
theorem stepTick_value (loss u : ℚ) (s : RunState) :
    (stepTick loss u s).value = s.value := by
  unfold stepTick
  split_ifs <;> rfl

/-- The loss-ticker branch keeps the local flag equal to registry
presence. -/
theorem stepTick_inv (loss u : ℚ) (s : RunState)
    (h : s.registered = s.present) :
    (stepTick loss u s).registered = (stepTick loss u s).present := by
  unfold stepTick
  split_ifs <;> first | rfl | exact h

/-- A single event keeps the local flag equal to registry presence. -/
theorem step_inv (loss : ℚ) (s : RunState) (e : Ev)
    (h : s.registered = s.present) :
    (step loss s e).registered = (step loss s e).present := by
  cases e with
  | query => exact h
  | tick u => exact stepTick_inv loss u s h

/-- Running the loop keeps the local flag equal to registry presence. -/
theorem run_inv (loss : ℚ) (s : RunState) (es : List Ev)
    (h : s.registered = s.present) :
    (run loss s es).registered = (run loss s es).present := by
  induction es generalizing s with
  | nil => exact h
  | cons e es ih => exact ih _ (step_inv loss s e h)

/-- Running over an appended list composes. -/
theorem run_append (loss : ℚ) (s : RunState) (es es' : List Ev) :
    run loss s (es ++ es') = run loss (run loss s es) es' := by
  induction es generalizing s with
  | nil => rfl
  | cons e es ih => simp [run, ih]

/-- The counter value after a run is the starting value plus the number of
query firings, whatever the loss probability and the tick draws. -/
theorem run_value (loss : ℚ) (s : RunState) (es : List Ev) :
    (run loss s es).value = s.value + countQueries es := by
  induction es generalizing s with
  | nil => simp [run, countQueries]
  | cons e es ih =>
    cases e with
    | query =>
      rw [run, ih]
      simp only [step, stepQuery, countQueries, List.filter, Ev.isQuery,
        List.length_cons]
      push_cast
      ring
    | tick u =>
      rw [run, ih]
      simp only [step, stepTick_value, countQueries, List.filter, Ev.isQuery]

/-- If the flag mirrors presence, no iteration reaches `MustRegister`'s
panic. -/
theorem runPanics_false (loss : ℚ) (s : RunState) (es : List Ev)
    (h : s.registered = s.present) :
    runPanics loss s es = false := by
  induction es generalizing s with
  | nil => rfl
  | cons e es ih =>
    rw [runPanics, ih _ (step_inv loss s e h)]
    cases e with
    | query => rfl
    | tick u =>
      simp only [stepPanics, Bool.or_false]
      cases hr : s.registered with
      | false =>
        have hp : s.present = false := h ▸ hr
        simp [hp]
      | true => simp [hr]

/-- If the flag mirrors presence, every register call of the loop happens
on an absent identity and every unregister call on a present one. -/
theorem runCalls_discipline (loss : ℚ) (s : RunState) (es : List Ev)
    (h : s.registered = s.present) :
    ∀ c ∈ runCalls loss s es,
      (c.op = RegOp.register → c.wasPresent = false) ∧
      (c.op = RegOp.unregister → c.wasPresent = true) := by
  induction es generalizing s with
  | nil => simp [runCalls]
  | cons e es ih =>
    intro c hc
    rw [runCalls, List.mem_append] at hc
    rcases hc with hc | hc
    · cases e with
      | query => simp [stepCalls] at hc
      | tick u =>
        by_cases h1 : u < loss ∧ s.registered = true
        · simp [stepCalls, h1] at hc
          subst hc
          have hp : s.present = true := h ▸ h1.2
          simp [hp]
        · by_cases h2 : s.registered = false
          · simp [stepCalls, h1, h2] at hc
            subst hc
            have hp : s.present = false := h ▸ h2
            simp [hp]
          · have hreg : s.registered = true := by
              cases hr : s.registered
              · exact absurd hr h2
              · rfl
            have hu : ¬ u < loss := fun hu => h1 ⟨hu, hreg⟩
            simp [stepCalls, hu, hreg] at hc
    · exact ih _ (step_inv loss s e h) c hc

/-- When the divisor is non-zero, the steady-loop sleeps all succeed. -/
theorem steadyLoopSleeps_ne_zero (restartI n : ℤ) (k : ℕ) (hn : n ≠ 0) :
    steadyLoopSleeps restartI n k = some (List.replicate k (restartI.tdiv n)) := by
  induction k with
  | zero => rfl
  | succ k ih => simp [steadyLoopSleeps, goDurDiv, hn, ih, List.replicate]

/-- Prefix sums of the steady-wave sleeps: the first `i` sleeps add up to
`i` times the per-slot sleep. -/
theorem waveSleeps_take_sum (restartI n i : ℕ) (h : i ≤ n) :
    ((waveSleeps restartI n).take i).sum = i * perSlotSleep restartI n := by
  simp [waveSleeps, List.take_replicate, List.sum_replicate,
    Nat.min_eq_left h, smul_eq_mul]

/-! ## Claim theorems -/

/-- C1: the initial wave (batch 0) starts exactly one Replica Task per slot
`i ∈ [0, N)` (its slots are exactly `0, …, N−1`), each immediately (start
delay `0`) and with lifetime `runInterval + restartInterval·i/N`; the
stagger offset (lifetime minus `runInterval`) equals `restartInterval·i/N`,
lies in `[0, restartInterval)`, and is non-decreasing in `i`. -/
theorem initial_wave_stagger (runI restartI n : ℕ) (hn : 0 < n)
    (hr : 0 < restartI) :
    (initialWave runI restartI n).length = n
  ∧ ((initialWave runI restartI n).map fun e => e.1) = List.range n
  ∧ (∀ i, i < n →
      (initialWave runI restartI n)[i]? = some (i, 0, runI + restartI * i / n))
  ∧ (∀ i, staggerOffset runI restartI n i = restartI * i / n)
  ∧ (∀ i, i < n → staggerOffset runI restartI n i < restartI)
  ∧ (∀ i j, i ≤ j →
      staggerOffset runI restartI n i ≤ staggerOffset runI restartI n j) := by
  refine ⟨by simp [initialWave], by simp [initialWave, Function.comp_def], ?_, ?_, ?_, ?_⟩
  · intro i hi
    simp [initialWave, List.getElem?_map, List.getElem?_range, hi,
      initialLifetime]
  · intro i
    simp [staggerOffset, initialLifetime, Nat.add_sub_cancel_left]
  · intro i hi
    have hoff : staggerOffset runI restartI n i = restartI * i / n := by
      simp [staggerOffset, initialLifetime, Nat.add_sub_cancel_left]
    rw [hoff, Nat.div_lt_iff_lt_mul hn]
    exact (Nat.mul_lt_mul_left hr).mpr hi
  · intro i j hij
    simp only [staggerOffset, initialLifetime, Nat.add_sub_cancel_left]
    exact Nat.div_le_div_right (Nat.mul_le_mul_left restartI hij)

/-- C1 witness: with `runInterval = 5`, `restartInterval = 7`, `N = 3`,
slot `2` has stagger offset `7·2/3 = 4 < 7`. -/
theorem initial_wave_stagger_witness :
    staggerOffset 5 7 3 2 < 7 :=
  (initial_wave_stagger 5 7 3 (by norm_num) (by norm_num)).2.2.2.2.1 2
    (by norm_num)

/-- C3 counterexample: with `N = 1` and `restartInterval = 60`, the last
slot of a steady-state wave (slot `0`) starts at offset `0` from the wave's
start, while the sum of the `N` per-slot sleeps is `60`; the claimed
equality between the two fails. -/
theorem steady_wave_last_start_cex :
    ¬ steadyStart 60 1 0 = (waveSleeps 60 1).sum := by decide

/-- C3 (amended): in steady state each wave starts one new Replica Task per
slot `i ∈ [0, N)` in increasing order (slots are exactly `0, …, N−1`, one
new identity per slot), each with lifetime `runInterval + restartInterval`,
slot `i` starting after the first `i` per-slot sleeps of
`restartInterval/N`; the last slot starts after the first `N−1` sleeps, and
the whole wave performs `N` sleeps totalling `N·(restartInterval/N)` ≈
`restartInterval`. -/
theorem steady_wave_schedule (runI restartI n : ℕ) (hn : 0 < n) :
    (steadyWave runI restartI n).length = n
  ∧ ((steadyWave runI restartI n).map fun e => e.1) = List.range n
  ∧ (∀ i, i < n → (steadyWave runI restartI n)[i]? =
      some (i, ((waveSleeps restartI n).take i).sum, runI + restartI))
  ∧ steadyStart restartI n (n - 1) = ((waveSleeps restartI n).take (n - 1)).sum
  ∧ (waveSleeps restartI n).length = n
  ∧ (waveSleeps restartI n).sum = n * perSlotSleep restartI n := by
  refine ⟨by simp [steadyWave], by simp [steadyWave, Function.comp_def], ?_, ?_,
    by simp [waveSleeps], ?_⟩
  · intro i hi
    rw [waveSleeps_take_sum restartI n i (le_of_lt hi)]
    simp [steadyWave, List.getElem?_map, List.getElem?_range, hi,
      steadyStart, steadyLifetime]
  · rw [waveSleeps_take_sum restartI n (n - 1) (Nat.sub_le n 1)]
    rfl
  · simp [waveSleeps, List.sum_replicate, smul_eq_mul]

/-- C3 witness: with `runInterval = 7`, `restartInterval = 60`, `N = 2`,
the last slot (slot `1`) starts after the first `1` sleep. -/
theorem steady_wave_schedule_witness :
    steadyStart 60 2 (2 - 1) = ((waveSleeps 60 2).take (2 - 1)).sum :=
  (steady_wave_schedule 7 60 2 (by norm_num)).2.2.2.1

/-- C4: every wait is `waitDurationNs = 1e9·(z·jitter + 1)/qps` ns, i.e.
`mean·(1 + z·jitter)` with mean `1/qps` seconds (`meanWaitNs` ns); the
first wait (index `0`) — and only the first — carries the extra uniform
factor `u0`; later waits are unscaled, and `jitter = 0` makes every
subsequent wait exactly the mean. -/
theorem wait_time_formula (jitter qps u0 : ℚ) (z : ℕ → ℚ) (k : ℕ) :
    waitDurationNs jitter qps (z k) = meanWaitNs qps * (1 + z k * jitter)
  ∧ taskWait jitter qps u0 z 0 = meanWaitNs qps * (1 + z 0 * jitter) * u0
  ∧ taskWait jitter qps u0 z (k + 1) = meanWaitNs qps * (1 + z (k + 1) * jitter)
  ∧ (jitter = 0 → taskWait jitter qps u0 z (k + 1) = meanWaitNs qps) := by
  have hfm : ∀ w : ℚ,
      waitDurationNs jitter qps w = meanWaitNs qps * (1 + w * jitter) := by
    intro w
    unfold waitDurationNs meanWaitNs
    ring
  refine ⟨hfm (z k), ?_, hfm (z (k + 1)), ?_⟩
  · show waitDurationNs jitter qps (z 0) * u0 = _
    rw [hfm (z 0)]
  · intro hj
    show waitDurationNs jitter qps (z (k + 1)) = _
    rw [hfm (z (k + 1)), hj]
    ring

/-- C4 witness: with `jitter = 0` and `qps = 5`, the second wait equals the
mean wait. -/
theorem wait_time_formula_witness :
    taskWait 0 5 (1 / 2) (fun _ => 3) 1 = meanWaitNs 5 :=
  (wait_time_formula 0 5 (1 / 2) (fun _ => 3) 0).2.2.2 rfl

/-- C8: the delay actually scheduled for every drawn wait is non-negative:
a non-positive draw is clamped by the timer layer to fire immediately
(delay `0`), a non-negative draw is used as-is (no re-drawing), and
negative draws do occur (e.g. `jitter = 1`, `qps = 1`, `z = −2`). -/
theorem scheduled_wait_clamped (jitter qps u0 : ℚ) (z : ℕ → ℚ) (k : ℕ) :
    0 ≤ scheduledWait jitter qps u0 z k
  ∧ (taskWait jitter qps u0 z k ≤ 0 → scheduledWait jitter qps u0 z k = 0)
  ∧ (0 ≤ taskWait jitter qps u0 z k →
      scheduledWait jitter qps u0 z k = taskWait jitter qps u0 z k)
  ∧ waitDurationNs 1 1 (-2) < 0 := by
  refine ⟨le_max_right _ _, ?_, ?_, by norm_num [waitDurationNs]⟩
  · intro h
    simp [scheduledWait, timerDelay, max_eq_right h]
  · intro h
    simp [scheduledWait, timerDelay, max_eq_left h]

/-- C8 witness: with `jitter = 1`, `qps = 1` and a normal draw of `−2`, the
drawn wait is negative and the scheduled delay is `0`. -/
theorem scheduled_wait_clamped_witness :
    scheduledWait 1 1 1 (fun _ => -2) 1 = 0 :=
  (scheduled_wait_clamped 1 1 1 (fun _ => -2) 1).2.1
    (by norm_num [taskWait, waitDurationNs])

/-- With `loss = 0` and non-negative tick draws, a task that is visible and
flagged stays visible and flagged over any run. -/
theorem run_loss_zero (s : RunState) (es : List Ev)
    (hreg : s.registered = true) (hpres : s.present = true)
    (hnn : ∀ v, Ev.tick v ∈ es → 0 ≤ v) :
    (run 0 s es).present = true ∧ (run 0 s es).registered = true := by
  induction es generalizing s with
  | nil => exact ⟨hpres, hreg⟩
  | cons e es ih =>
    cases e with
    | query =>
      exact ih (stepQuery s) hreg hpres
        fun v hv => hnn v (List.mem_cons_of_mem _ hv)
    | tick u =>
      have hu : ¬ u < (0 : ℚ) := not_lt.mpr (hnn u (List.mem_cons_self _ _))
      have hstep : stepTick 0 u s = s := by
        unfold stepTick
        rw [if_neg fun hcond => hu hcond.1, if_neg (by simp [hreg])]
      rw [run, step, hstep]
      exact ih s hreg hpres fun v hv => hnn v (List.mem_cons_of_mem _ hv)

/-- C2: the Visibility Controller ticks on a fixed 1-second period and, on
each tick, unregisters a visible counter exactly when the fresh draw is
below `loss`, keeps it otherwise, and re-registers an absent counter
unconditionally — every loss event lasts exactly one tick; consequently
with `loss = 1` (draws in `[0,1)`) the counter is never visible at two
consecutive ticks, and with `loss = 0` (draws `≥ 0`) it stays visible
through any run. -/
theorem visibility_controller (loss u : ℚ) (s : RunState) (es : List Ev)
    (hinv : s.registered = s.present) :
    lossTickPeriodNs = 1000000000
  ∧ (s.present = true → u < loss → (stepTick loss u s).present = false)
  ∧ (s.present = true → ¬ u < loss → (stepTick loss u s).present = true)
  ∧ (s.present = false → (stepTick loss u s).present = true)
  ∧ (loss = 1 → u < 1 →
      ¬(s.present = true ∧ (stepTick loss u s).present = true))
  ∧ (loss = 0 → s.present = true → (∀ v, Ev.tick v ∈ es → 0 ≤ v) →
      (run loss s es).present = true) := by
  refine ⟨rfl, ?_, ?_, ?_, ?_, ?_⟩
  · intro hp hu
    have hr : s.registered = true := hinv.trans hp
    simp [stepTick, hu, hr]
  · intro hp hu
    have hr : s.registered = true := hinv.trans hp
    simp [stepTick, hu, hr, hp]
  · intro hp
    have hr : s.registered = false := hinv.trans hp
    simp [stepTick, hr]
  · rintro hl hu ⟨hp, hp2⟩
    have hr : s.registered = true := hinv.trans hp
    rw [hl] at hp2
    simp [stepTick, hu, hr] at hp2
  · intro hl hp hnn
    have hr : s.registered = true := hinv.trans hp
    subst hl
    exact (run_loss_zero s es hr hp hnn).1

/-- C2 witness: a visible counter with `loss = 1` and draw `0` is
unregistered at the tick. -/
theorem visibility_controller_witness :
    (stepTick 1 0 initState).present = false :=
  (visibility_controller 1 0 initState [] rfl).2.1 rfl (by norm_num)

/-- C5 counterexample: with `loss = 1`, a single loss tick (draw `0`) hides
the counter; when the lifetime then expires, the deferred
`prometheus.Unregister` of line 71 runs while the counter is absent from
the registry — an unregister call on a currently absent identity, which the
claim rules out. -/
theorem unregister_absent_cex :
    Call.mk RegOp.unregister false ∈ taskCalls 1 [Ev.tick 0] := by decide

/-- C5 (amended): on lifetime expiry the task stops and makes exactly one
final unregister call; within the loop, every register call is on an absent
identity and every unregister call on a present one (at most one unregister
per register); the final deferred unregister is on a present identity
exactly when the counter is visible at expiry — if the lifetime expires
while the counter is hidden, that final call targets an absent identity
(for the Prometheus registry, `Unregister` is then a no-op returning
`false`, not a fatal error). -/
theorem unregister_discipline (loss : ℚ) (es : List Ev) :
    (taskCalls loss es).getLast? =
      some ⟨RegOp.unregister, (run loss initState es).present⟩
  ∧ (∀ c ∈ runCalls loss initState es,
      c.op = RegOp.unregister → c.wasPresent = true)
  ∧ (∀ c ∈ runCalls loss initState es,
      c.op = RegOp.register → c.wasPresent = false)
  ∧ ((run loss initState es).registered = true →
      ∀ c ∈ taskCalls loss es, c.op = RegOp.unregister → c.wasPresent = true)
  ∧ ((run loss initState es).registered = false →
      Call.mk RegOp.unregister false ∈ taskCalls loss es) := by
  refine ⟨?_, ?_, ?_, ?_, ?_⟩
  · unfold taskCalls
    rw [List.getLast?_append_cons]
    rfl
  · exact fun c hc => (runCalls_discipline loss initState es rfl c hc).2
  · exact fun c hc => (runCalls_discipline loss initState es rfl c hc).1
  · intro hreg c hc hop
    unfold taskCalls at hc
    rcases List.mem_append.mp hc with hc | hc
    · rcases List.mem_cons.mp hc with hc | hc
      · rw [hc] at hop
        simp at hop
      · exact (runCalls_discipline loss initState es rfl c hc).2 hop
    · rcases List.mem_singleton.mp hc with rfl
      show (run loss initState es).present = true
      rw [← run_inv loss initState es rfl]
      exact hreg
  · intro hreg
    have hpres : (run loss initState es).present = false := by
      rw [← run_inv loss initState es rfl]
      exact hreg
    unfold taskCalls
    rw [List.mem_append]
    right
    simp [hpres]

/-- C5 witness: with no loss ticks the counter is still visible at expiry,
and then every unregister call of the whole task life is on a present
identity. -/
theorem unregister_discipline_witness :
    (Call.mk RegOp.unregister true).wasPresent = true :=
  (unregister_discipline 1 []).2.2.2.1 rfl ⟨RegOp.unregister, true⟩
    (by decide) rfl

/-- C6: a visibility toggle changes only the counter's presence: the tick
branch never changes the value (its result differs from the input state in
the `registered`/`present` fields only), the query branch accumulates value
regardless of visibility, and after any run the value equals the number of
query firings — independent of `loss` and of every tick draw — so a
re-registered counter exports exactly the value it would have had if it had
never been hidden. -/
theorem visibility_toggle_frame (loss u : ℚ) (s : RunState)
    (es es' : List Ev) :
    (stepTick loss u s).value = s.value
  ∧ (stepTick loss u s = s
      ∨ stepTick loss u s = { s with registered := false, present := false }
      ∨ stepTick loss u s = { s with registered := true, present := true })
  ∧ (stepQuery s).value = s.value + 1
  ∧ (run loss initState es).value = countQueries es
  ∧ (countQueries es = countQueries es' →
      (run loss initState es).value = (run 0 initState es').value) := by
  refine ⟨stepTick_value loss u s, ?_, rfl, ?_, ?_⟩
  · unfold stepTick
    split_ifs
    · right; left; rfl
    · right; right; rfl
    · left; rfl
  · rw [run_value]
    simp [initState]
  · intro h
    rw [run_value, run_value, h]

/-- C6 witness: one query followed by a loss tick under `loss = 1` yields
the same counter value as one query with no loss at all. -/
theorem visibility_toggle_frame_witness :
    (run 1 initState [Ev.query, Ev.tick 0]).value =
      (run 0 initState [Ev.query]).value :=
  (visibility_toggle_frame 1 0 initState [Ev.query, Ev.tick 0]
    [Ev.query]).2.2.2.2 (by decide)

/-- C7: each query firing adds exactly `1` to the counter and touches
nothing else; the counter starts at `0`, after any run equals the number of
query firings, is always non-negative, and never decreases as the run
extends — so successive snapshots of a present identity are
non-decreasing. -/
theorem counter_monotone (loss : ℚ) (s : RunState) (es es' : List Ev) :
    (stepQuery s).value = s.value + 1
  ∧ (stepQuery s).registered = s.registered
  ∧ (stepQuery s).present = s.present
  ∧ initState.value = 0
  ∧ (run loss initState es).value = countQueries es
  ∧ 0 ≤ (run loss initState es).value
  ∧ (run loss initState es).value ≤ (run loss initState (es ++ es')).value := by
  have hq : countQueries (es ++ es') = countQueries es + countQueries es' := by
    simp [countQueries, List.filter_append]
  refine ⟨rfl, rfl, rfl, rfl, ?_, ?_, ?_⟩
  · rw [run_value]
    simp [initState]
  · rw [run_value]
    simp [initState]
  · rw [run_value, run_value, hq]
    simp [initState]

/-- C9 counterexample: the configuration `num = −1`, `qps = −1`,
`loss = −1` violates every constraint the spec lists, yet startup succeeds
(`main` performs no validation) and the steady-state loop performs no
division: the program runs the simulation (with empty waves) instead of
failing fatally at detection. -/
theorem no_validation_cex :
    invalidConfig ⟨-1, 60, 60, -1, 0, -1⟩
  ∧ mainStartup ⟨-1, 60, 60, -1, 0, -1⟩ = Except.ok []
  ∧ steadySleepsZ ⟨-1, 60, 60, -1, 0, -1⟩ = some [] :=
  ⟨Or.inl (by norm_num), rfl, rfl⟩

/-- C9 (amended): the program performs no validation of its configuration:
startup always succeeds; for `N ≤ 0` the initial wave is empty and the
steady-state inner loop runs no iteration — in particular the division
`restartInterval/N` is guarded by the loop bound, so even `N = 0` causes no
division-by-zero — and for every `N` the steady wave's sleeps all succeed;
non-positive `qps` and negative `loss` are simply used as given. -/
theorem no_validation (c : Config) :
    (∃ l, mainStartup c = Except.ok l)
  ∧ (c.num ≤ 0 → mainStartup c = Except.ok [] ∧ steadySleepsZ c = some [])
  ∧ (∃ l, steadySleepsZ c = some l) := by
  refine ⟨⟨_, rfl⟩, ?_, ?_⟩
  · intro h
    have h0 : c.num.toNat = 0 := Int.toNat_of_nonpos h
    constructor
    · unfold mainStartup
      rw [h0]
      rfl
    · unfold steadySleepsZ
      rw [h0]
      rfl
  · by_cases h : c.num = 0
    · refine ⟨[], ?_⟩
      unfold steadySleepsZ
      rw [h]
      rfl
    · exact ⟨_, steadyLoopSleeps_ne_zero c.restartDuration c.num c.num.toNat h⟩

/-- C9 witness: with `num = −2` (an invalid task count) startup returns an
empty wave and the steady loop sleeps succeed vacuously. -/
theorem no_validation_witness :
    mainStartup ⟨-2, 60, 60, 0, 0, 0⟩ = Except.ok []
  ∧ steadySleepsZ ⟨-2, 60, 60, 0, 0, 0⟩ = some [] :=
  (no_validation ⟨-2, 60, 60, 0, 0, 0⟩).2.1 (by norm_num)

/-- C10: the local `registered` flag equals the counter's actual presence
in the registry at task start and after every run, every register call of
the visibility branch is made for an absent identity, and the fatal
`MustRegister` double-registration path is never reached. -/
theorem flag_matches_registry (loss : ℚ) (es : List Ev) :
    initState.registered = initState.present
  ∧ (run loss initState es).registered = (run loss initState es).present
  ∧ runPanics loss initState es = false
  ∧ (∀ c ∈ runCalls loss initState es,
      c.op = RegOp.register → c.wasPresent = false) :=
  ⟨rfl, run_inv loss initState es rfl, runPanics_false loss initState es rfl,
    fun c hc => (runCalls_discipline loss initState es rfl c hc).1⟩

/-- C10 witness: in a run that hides and then re-registers the counter,
the re-registration call was made on an absent identity. -/
theorem flag_matches_registry_witness :
    (Call.mk RegOp.register false).wasPresent = false :=
  (flag_matches_registry 1 [Ev.tick 0, Ev.tick 0]).2.2.2
    ⟨RegOp.register, false⟩ (by decide) rfl

end Rrsim
